import Mathlib

/-!
# gdb_tutorial : `01_basic_gdb/src/code.c`

A shallow embedding of the single function `main` of `code.c` and the
properties of its observable behaviour (standard output, exit status,
values of the locals `i`, `j`, `z`).

The C function is straight-line code.  Each statement of the source is
translated to one state transformer, named after the source line it sits
on; `main` runs them in source order.  Three things that C leaves
implicit are made explicit in the state so that they can be reasoned
about:

* a local declared without initialiser holds `none` until it is assigned,
  and reading `none` is the fault `uninitRead`;
* dividing by zero is the fault `divByZero`;
* the representation of an arithmetic result in the type `int` is a
  parameter (`IntSem.norm`): C's own semantics faults on signed overflow,
  and the same program can be run with wrap-around or unbounded integers.
-/

set_option linter.unusedVariables false

namespace GdbTutorial

/-- Ways in which the evaluation of the C code can go wrong. -/
inductive Fault where
  | uninitRead
  | divByZero
  | overflow
deriving DecidableEq, Repr

/-- Machine state of `main`: the three locals of line 127, the text
written to standard output so far, and (ghost) the list of integer values
produced so far by literals and arithmetic operators, oldest first. -/
structure State where
  i : Option Int
  j : Option Int
  z : Option Int
  out : String
  computed : List Int
deriving DecidableEq, Repr

/-- Statements and expressions: state transformers that may fault. -/
abbrev Exec := StateT State (Except Fault)

/-- Integer semantics: `norm` maps the mathematical result of a literal or
operator to its value in the type `int` (or faults), `quot` is the
quotient taken by `/` on a non-zero divisor. -/
structure IntSem where
  norm : Int → Except Fault Int
  quot : Int → Int → Int

/-- Range of a two's-complement signed integer of `w` bits. -/
def inRange (w : Nat) (x : Int) : Prop := -(2 : Int) ^ (w - 1) ≤ x ∧ x < (2 : Int) ^ (w - 1)

instance (w : Nat) (x : Int) : Decidable (inRange w x) :=
  inferInstanceAs (Decidable (_ ∧ _))

/-- Reduction modulo `2^w` into the signed range of `w` bits. -/
def wrapSigned (w : Nat) (x : Int) : Int :=
  (x + (2 : Int) ^ (w - 1)) % (2 : Int) ^ w - (2 : Int) ^ (w - 1)

/-- Signed integers of `w` bits where overflow is a fault (C's `int` is
the case `w = 32`), with truncating division. -/
def checkedInt (w : Nat) : IntSem where
  norm x := if inRange w x then .ok x else .error .overflow
  quot := Int.tdiv

/-- Signed integers of `w` bits with wrap-around modulo `2^w`. -/
def wrapInt (w : Nat) : IntSem where
  norm x := .ok (wrapSigned w x)
  quot := Int.tdiv

/-- Unbounded mathematical integers with truncating division. -/
def exactInt : IntSem where
  norm x := .ok x
  quot := Int.tdiv

/-- The semantics of the C type `int` on the platforms the tutorial
targets: 32 bits, overflow undefined (a fault), `/` truncates toward
zero. -/
def cInt : IntSem := checkedInt 32

/-- Record a freshly computed value. -/
def produce (S : IntSem) (x : Int) : Exec Int := do
  let v ← (liftM (S.norm x) : Exec Int)
  modify fun s => { s with computed := s.computed ++ [v] }
  return v

/-- An integer literal of the source. -/
def lit (S : IntSem) (n : Int) : Exec Int := produce S n

/-- C `a + b` on `int`. -/
def add (S : IntSem) (a b : Int) : Exec Int := produce S (a + b)

/-- C `a - b` on `int`. -/
def sub (S : IntSem) (a b : Int) : Exec Int := produce S (a - b)

/-- C `a * b` on `int`. -/
def mul (S : IntSem) (a b : Int) : Exec Int := produce S (a * b)

/-- C `a / b` on `int`: a zero divisor is a fault, otherwise the quotient
of the semantics. -/
def div (S : IntSem) (a b : Int) : Exec Int :=
  if b = 0 then throw Fault.divByZero else produce S (S.quot a b)

/-- Read of a local: a local that was never assigned has no value. -/
def readVar (sel : State → Option Int) : Exec Int := do
  match sel (← get) with
  | some v => return v
  | none => throw Fault.uninitRead

/-- Decimal rendering of an integer, as the conversion `%d` does it: a
minus sign for a negative value, then the digits without padding. -/
def renderInt (n : Int) : List Char :=
  if n < 0 then '-' :: Nat.toDigits 10 n.natAbs else Nat.toDigits 10 n.natAbs

/-- Expansion of a `printf` format: each `%d` consumes the next argument
and is replaced by its decimal rendering, every other character is copied.
Only the conversion `%d` occurs in the source. -/
def format : List Char → List Int → List Char
  | [], _ => []
  | '%' :: 'd' :: rest, a :: args => renderInt a ++ format rest args
  | c :: rest, args => c :: format rest args

/-- The library call `printf(fmt, args...)`: appends the expanded format to
standard output.  Its return value is discarded by every call in `main`. -/
def printf (fmt : String) (args : List Int) : Exec Unit :=
  modify fun s => { s with out := s.out ++ String.mk (format fmt.toList args) }

/-- Line 127: `int i = 1, j, z;` -/
def line127 (S : IntSem) : Exec Unit := do
  let v ← lit S 1
  modify fun s => { s with i := some v, j := none, z := none }

/-- Line 129: `printf("%d little\n", i);` -/
def line129 : Exec Unit := do
  let i ← readVar State.i
  printf "%d little\n" [i]

/-- Line 131: `j = i + i;` -/
def line131 (S : IntSem) : Exec Unit := do
  let a ← readVar State.i
  let b ← readVar State.i
  let v ← add S a b
  modify fun s => { s with j := some v }

/-- Line 133: `printf("%d little\n", j);` -/
def line133 : Exec Unit := do
  let j ← readVar State.j
  printf "%d little\n" [j]

/-- Line 135: `z = i + j;` -/
def line135 (S : IntSem) : Exec Unit := do
  let a ← readVar State.i
  let b ← readVar State.j
  let v ← add S a b
  modify fun s => { s with z := some v }

/-- Line 137: `printf("%d little indians...\n", z);` -/
def line137 : Exec Unit := do
  let z ← readVar State.z
  printf "%d little indians...\n" [z]

/-- Line 139: `i = 10;` -/
def line139 (S : IntSem) : Exec Unit := do
  let v ← lit S 10
  modify fun s => { s with i := some v }

/-- Line 140: `j = 20;` -/
def line140 (S : IntSem) : Exec Unit := do
  let v ← lit S 20
  modify fun s => { s with j := some v }

/-- Line 142: `printf("i + j = %d\n", i + j);` -/
def line142 (S : IntSem) : Exec Unit := do
  let a ← readVar State.i
  let b ← readVar State.j
  let v ← add S a b
  printf "i + j = %d\n" [v]

/-- Line 143: `printf("i - j = %d\n", i - j);` -/
def line143 (S : IntSem) : Exec Unit := do
  let a ← readVar State.i
  let b ← readVar State.j
  let v ← sub S a b
  printf "i - j = %d\n" [v]

/-- Line 144: `printf("i * j = %d\n", i * j);` -/
def line144 (S : IntSem) : Exec Unit := do
  let a ← readVar State.i
  let b ← readVar State.j
  let v ← mul S a b
  printf "i * j = %d\n" [v]

/-- Line 145: `printf("i / j = %d\n", i / j);` -/
def line145 (S : IntSem) : Exec Unit := do
  let a ← readVar State.i
  let b ← readVar State.j
  let v ← div S a b
  printf "i / j = %d\n" [v]

/-- The statements of `main` that precede `return(0);`, in source order,
each with the number of the source line it stands on. -/
def statements (S : IntSem) : List (Nat × Exec Unit) :=
  [ (127, line127 S), (129, line129), (131, line131 S), (133, line133),
    (135, line135 S), (137, line137), (139, line139 S), (140, line140 S),
    (142, line142 S), (143, line143 S), (144, line144 S), (145, line145 S) ]

/-- Run a list of statements one after the other. -/
def runAll : List (Nat × Exec Unit) → Exec Unit
  | [] => pure ()
  | (_, stmt) :: rest => do stmt; runAll rest

/-- State on entry of `main`: nothing written, no local declared yet. -/
def entry : State := { i := none, j := none, z := none, out := "", computed := [] }

/-- The function `main` of `code.c` under the integer semantics `S`: the
arguments are bound and not used, the statements run in order, and line
147 returns 0.  The result is the returned value and the final state. -/
def mainWith (S : IntSem) (argc : Int) (argv : List String) : Except Fault (Int × State) :=
  (do runAll (statements S); return (0 : Int) : Exec Int).run entry

/-- The function `main` of `code.c` with C's `int`. -/
def main (argc : Int) (argv : List String) : Except Fault (Int × State) :=
  mainWith cInt argc argv

/-- State in which control reaches source line `n`: the state after the
statements on the lines before `n`. -/
def stateAt (S : IntSem) (n : Nat) : Except Fault State :=
  (fun r => r.2) <$> (runAll ((statements S).filter fun p => p.1 < n)).run entry

/-- Text on standard output at the end of a run. -/
def stdoutOf (r : Except Fault (Int × State)) : Option String :=
  match r with
  | .ok (_, s) => some s.out
  | .error _ => none

/-- Exit status of a run. -/
def exitOf (r : Except Fault (Int × State)) : Option Int :=
  match r with
  | .ok (c, _) => some c
  | .error _ => none

/-- Final state of a run. -/
def finalOf (r : Except Fault (Int × State)) : Option State :=
  match r with
  | .ok (_, s) => some s
  | .error _ => none

/-- Split a text into its newline-terminated lines (each returned with its
newline); `none` when the text ends in a line without newline.  The first
argument accumulates the current line, in reverse. -/
def terminatedLines : List Char → List Char → Option (List String)
  | cur, [] => if cur.isEmpty then some [] else none
  | cur, c :: rest =>
    if c = '\n' then
      (terminatedLines [] rest).map fun ls => String.mk (c :: cur).reverse :: ls
    else terminatedLines (c :: cur) rest

/-- Number of newline-terminated lines a text consists of. -/
def lineCount (out : String) : Option Nat :=
  (terminatedLines [] out.toList).map List.length

/-- Variant of C's `int` whose `/` rounds toward minus infinity. -/
def floorInt : IntSem := { cInt with quot := Int.fdiv }

/-- Variant of C's `int` whose `/` is Euclidean (remainder never negative). -/
def euclidInt : IntSem := { cInt with quot := Int.ediv }

/-! ## Auxiliary facts -/

/-- Every statement of `main` stands on a line before 146. -/
theorem filter_statements_all (S : IntSem) (k : Nat) :
    (statements S).filter (fun p => decide (p.1 < 146 + k)) = statements S := by
  apply List.filter_eq_self.mpr
  intro a ha
  simp only [statements, List.mem_cons, List.mem_singleton] at ha
  have : a.1 < 146 + k := by
    rcases ha with h | h | h | h | h | h | h | h | h | h | h | h | h
    all_goals first | (rw [h]; show _ < 146 + k; omega) | cases h
  simpa using this

/-- Once line 135 has run, `z` holds 3 at every later line. -/
theorem z_after_line135 (n : Nat) :
    (stateAt cInt (136 + n)).toOption.map State.z = some (some 3) := by
  match n with
  | 0 | 1 | 2 | 3 | 4 | 5 | 6 | 7 | 8 | 9 => rfl
  | k + 10 =>
    unfold stateAt
    rw [show 136 + (k + 10) = 146 + k by omega, filter_statements_all]
    rfl

/-- Up to line 135, `z` holds no value. -/
theorem z_upto_line135 : ∀ n < 136, (stateAt cInt n).toOption.map State.z = some none := by
  decide

/-- The model does fault on a read that no assignment precedes: printing
`j` (line 133) right after the declaration (line 127). -/
theorem read_before_assignment_faults :
    (runAll [(127, line127 cInt), (133, line133)]).run entry = .error Fault.uninitRead := rfl

/-- The model does fault on a zero divisor. -/
theorem div_zero_faults (S : IntSem) (a : Int) (s : State) :
    (div S a 0).run s = .error Fault.divByZero := rfl

/-- The run of `main` under the integer semantics used below: all of them
end in the same state and return 0. -/
theorem mainWith_result (argc : Int) (argv : List String) :
    ∀ S ∈ [cInt, checkedInt 16, wrapInt 32, exactInt, floorInt, euclidInt],
      mainWith S argc argv =
        .ok (0, { i := some 10, j := some 20, z := some 3,
                  out := "1 little\n2 little\n3 little indians...\ni + j = 30\ni - j = -10\ni * j = 200\ni / j = 0\n",
                  computed := [1, 2, 3, 10, 20, 30, -10, 200, 0] }) := by
  intro S hS
  simp only [List.mem_cons, List.mem_singleton, List.not_mem_nil, or_false] at hS
  rcases hS with h | h | h | h | h | h <;> subst h <;> rfl

/-- A value in the signed range of `w` bits is left as it is by the
reduction modulo `2^w`. -/
theorem wrapSigned_of_inRange (w : Nat) (x : Int) (hw : 0 < w) (hx : inRange w x) :
    wrapSigned w x = x := by
  obtain ⟨k, rfl⟩ : ∃ k, w = k + 1 := ⟨w - 1, by omega⟩
  unfold inRange at hx
  unfold wrapSigned
  simp only [Nat.add_sub_cancel] at hx ⊢
  have h2 : (2 : Int) ^ (k + 1) = 2 * (2 : Int) ^ k := by rw [pow_succ]; ring
  have hpos : (0 : Int) < (2 : Int) ^ k := by positivity
  rw [h2, Int.emod_eq_of_lt (by omega) (by omega)]
  omega

/-- On a non-negative dividend and a non-negative divisor the three
conventions of integer division give the same quotient. -/
theorem quot_agree_of_nonneg (a b : Int) (ha : 0 ≤ a) (hb : 0 ≤ b) :
    floorInt.quot a b = cInt.quot a b ∧ euclidInt.quot a b = cInt.quot a b :=
  ⟨Int.fdiv_eq_tdiv ha hb, (Int.tdiv_eq_ediv ha hb).symm⟩

/-- On a negative dividend the three conventions do differ. -/
theorem quot_differ_on_negative :
    cInt.quot (-10) 20 = 0 ∧ floorInt.quot (-10) 20 = -1 ∧ euclidInt.quot (-10) 20 = -1 :=
  ⟨rfl, rfl, rfl⟩

/-! ## The claims -/

/-- C1: for every argument vector, the text `main` writes to standard
output is exactly the concatenation of the seven lines "1 little",
"2 little", "3 little indians...", "i + j = 30", "i - j = -10",
"i * j = 200", "i / j = 0", each with its newline, in this order, where
each number is the decimal rendering of the value passed for `%d`. -/
theorem main_stdout (argc : Int) (argv : List String) :
    stdoutOf (main argc argv) =
      some ("1 little\n" ++ "2 little\n" ++ "3 little indians...\n" ++ "i + j = 30\n"
        ++ "i - j = -10\n" ++ "i * j = 200\n" ++ "i / j = 0\n")
    ∧ stdoutOf (main argc argv) =
      some (String.mk (renderInt 1 ++ " little\n".toList ++ renderInt 2 ++ " little\n".toList
        ++ renderInt 3 ++ " little indians...\n".toList
        ++ "i + j = ".toList ++ renderInt 30 ++ "\n".toList
        ++ "i - j = ".toList ++ renderInt (-10) ++ "\n".toList
        ++ "i * j = ".toList ++ renderInt 200 ++ "\n".toList
        ++ "i / j = ".toList ++ renderInt 0 ++ "\n".toList)) :=
  ⟨rfl, rfl⟩

/-- C2 (as stated, refuted): the output of `main` does not consist of eight
newline-terminated lines. -/
theorem main_line_count_ne_eight :
    ¬ ((stdoutOf (main 0 [])).bind lineCount = some 8) := by
  decide

/-- C2 (amended): for every argument vector, the output of `main` consists of
exactly seven newline-terminated lines, one for each of the seven `printf`
calls. -/
theorem main_line_count (argc : Int) (argv : List String) :
    (stdoutOf (main argc argv)).bind lineCount = some 7
    ∧ (stdoutOf (main argc argv)).bind (fun o => terminatedLines [] o.toList) =
      some ["1 little\n", "2 little\n", "3 little indians...\n", "i + j = 30\n",
        "i - j = -10\n", "i * j = 200\n", "i / j = 0\n"] :=
  ⟨rfl, rfl⟩

/-- C3: the `z` that line 137 prints is `i + j` taken on the first-phase
values `i = 1`, `j = 2`, that is 3; it is assigned before `i` and `j` become
10 and 20, at no line is it 30, and it is still 3 when `main` returns with
`i = 10` and `j = 20`. -/
theorem z_is_first_phase_sum (argc : Int) (argv : List String) :
    (stateAt cInt 135).toOption.map (fun s => (s.i, s.j, s.z)) = some (some 1, some 2, none)
    ∧ (stateAt cInt 137).toOption.map (fun s => (s.i, s.j, s.z)) = some (some 1, some 2, some 3)
    ∧ (stateAt cInt 139).toOption.map (fun s => (s.i, s.j, s.z)) = some (some 1, some 2, some 3)
    ∧ (stateAt cInt 142).toOption.map (fun s => (s.i, s.j, s.z)) = some (some 10, some 20, some 3)
    ∧ (∀ n, (stateAt cInt n).toOption.map State.z ≠ some (some 30))
    ∧ (∀ n, (stateAt cInt (136 + n)).toOption.map State.z = some (some 3))
    ∧ (finalOf (main argc argv)).map (fun s => (s.i, s.j, s.z)) = some (some 10, some 20, some 3)
    ∧ (stdoutOf (main argc argv)).bind
        (fun o => (terminatedLines [] o.toList).bind fun ls => ls.get? 2) =
      some "3 little indians...\n" := by
  refine ⟨rfl, rfl, rfl, rfl, ?_, z_after_line135, rfl, rfl⟩
  intro n
  rcases Nat.lt_or_ge n 136 with h | h
  · rw [z_upto_line135 n h]; decide
  · obtain ⟨k, rfl⟩ := Nat.exists_eq_add_of_le h
    rw [z_after_line135 k]; decide

/-- C4: at line 142 `i = 10` and `j = 20`, and the four expressions passed to
the last four `printf` calls evaluate to 30, -10, 200 and 0, the quotient
being the one that truncates toward zero. -/
theorem second_phase_values (argc : Int) (argv : List String) :
    (stateAt cInt 142).toOption.map (fun s => (s.i, s.j)) = some (some 10, some 20)
    ∧ (finalOf (main argc argv)).map (fun s => s.computed.drop 5) = some [30, -10, 200, 0]
    ∧ (stdoutOf (main argc argv)).bind
        (fun o => (terminatedLines [] o.toList).map fun ls => ls.drop 3) =
      some ["i + j = 30\n", "i - j = -10\n", "i * j = 200\n", "i / j = 0\n"]
    ∧ cInt.quot = Int.tdiv
    ∧ cInt.quot 10 20 = 0
    ∧ cInt.quot (-7) 2 = -3 ∧ cInt.quot 7 (-2) = -3 :=
  ⟨rfl, rfl, rfl, rfl, rfl, rfl, rfl⟩

/-- C5: for every argument vector `main` runs to its single `return` and
returns 0. -/
theorem main_returns_zero (argc : Int) (argv : List String) :
    exitOf (main argc argv) = some 0 ∧ ∃ s, main argc argv = .ok (0, s) :=
  ⟨rfl, _, rfl⟩

/-- C6: any two runs of `main`, on any two argument vectors, end with the
same standard output, the same return value and the same state. -/
theorem main_ignores_arguments (argc1 argc2 : Int) (argv1 argv2 : List String) :
    stdoutOf (main argc1 argv1) = stdoutOf (main argc2 argv2)
    ∧ exitOf (main argc1 argv1) = exitOf (main argc2 argv2)
    ∧ main argc1 argv1 = main argc2 argv2 :=
  ⟨rfl, rfl, rfl⟩

/-- C7: when control reaches the only division (line 145) the divisor `j`
holds 20, a division by 20 never takes the zero-divisor branch, and no run
of `main` ends in the division-by-zero fault. -/
theorem no_division_by_zero (argc : Int) (argv : List String) :
    (stateAt cInt 145).toOption.map State.j = some (some 20)
    ∧ (∀ (a : Int) (s : State), (div cInt a 20).run s ≠ .error Fault.divByZero)
    ∧ main argc argv ≠ .error Fault.divByZero
    ∧ (finalOf (main argc argv)).isSome = true := by
  refine ⟨rfl, ?_, ?_, rfl⟩
  · intro a s h
    have h20 : ¬ ((20 : Int) = 0) := by decide
    simp only [div, if_neg h20, produce, cInt, checkedInt] at h
    by_cases hr : inRange 32 (Int.tdiv a 20)
    · simp only [if_pos hr] at h
      cases h
    · simp only [if_neg hr] at h
      cases h
  · intro h
    cases h

/-- C8: after the declaration `j` and `z` hold no value, yet no run of `main`
reads a local that holds none: at each line that reads `j` (133, 135, 142 to
145) `j` has been assigned, at line 137 `z` has been assigned, and `j` holds
2 when it is first printed (line 133). -/
theorem no_uninitialised_read (argc : Int) (argv : List String) :
    (stateAt cInt 129).toOption.map (fun s => (s.i, s.j, s.z)) = some (some 1, none, none)
    ∧ main argc argv ≠ .error Fault.uninitRead
    ∧ (finalOf (main argc argv)).isSome = true
    ∧ [133, 135, 142, 143, 144, 145].map (fun n => (stateAt cInt n).toOption.map State.j) =
      [some (some 2), some (some 2), some (some 20), some (some 20), some (some 20),
        some (some 20)]
    ∧ (stateAt cInt 137).toOption.map State.z = some (some 3)
    ∧ (stdoutOf (main argc argv)).bind
        (fun o => (terminatedLines [] o.toList).bind fun ls => ls.get? 1) =
      some "2 little\n" := by
  refine ⟨rfl, ?_, rfl, rfl, rfl, rfl⟩
  intro h
  cases h

/-- C9: the values `main` computes are 1, 2, 3, 10, 20, 30, -10, 200, 0; all
of them lie in the range of a 16-bit and of a 32-bit signed integer, no
overflow fault occurs even with 16-bit integers, and wrap-around arithmetic
modulo 2^32 prints the same text as arithmetic on unbounded integers. -/
theorem no_overflow_and_wrap_agrees (argc : Int) (argv : List String) :
    (finalOf (main argc argv)).map State.computed = some [1, 2, 3, 10, 20, 30, -10, 200, 0]
    ∧ (finalOf (main argc argv)).map
        (fun s => s.computed.all fun v => decide (inRange 16 v ∧ inRange 32 v)) = some true
    ∧ mainWith (checkedInt 16) argc argv = main argc argv
    ∧ mainWith (wrapInt 32) argc argv = mainWith exactInt argc argv
    ∧ stdoutOf (mainWith (wrapInt 32) argc argv) = stdoutOf (mainWith exactInt argc argv)
    ∧ stdoutOf (mainWith exactInt argc argv) =
      some "1 little\n2 little\n3 little indians...\ni + j = 30\ni - j = -10\ni * j = 200\ni / j = 0\n"
    ∧ mainWith exactInt argc argv = main argc argv := by
  have hc := mainWith_result argc argv cInt (by simp)
  have h16 := mainWith_result argc argv (checkedInt 16) (by simp)
  have hw := mainWith_result argc argv (wrapInt 32) (by simp)
  have he := mainWith_result argc argv exactInt (by simp)
  refine ⟨rfl, rfl, ?_, ?_, ?_, rfl, ?_⟩
  · rw [h16]; exact hc.symm
  · rw [hw]; exact he.symm
  · rw [hw, he]
  · rw [he]; exact hc.symm

/-- C10: at the division of line 145 the operands are `i = 10` and `j = 20`;
truncating, floor and Euclidean division all give 0 there, and `main` run
with either of the other two conventions behaves exactly as with C's
truncating division. -/
theorem division_conventions_agree (argc : Int) (argv : List String) :
    (stateAt cInt 145).toOption.map (fun s => (s.i, s.j)) = some (some 10, some 20)
    ∧ cInt.quot 10 20 = 0 ∧ floorInt.quot 10 20 = 0 ∧ euclidInt.quot 10 20 = 0
    ∧ mainWith floorInt argc argv = main argc argv
    ∧ mainWith euclidInt argc argv = main argc argv
    ∧ stdoutOf (mainWith floorInt argc argv) = stdoutOf (main argc argv)
    ∧ stdoutOf (mainWith euclidInt argc argv) = stdoutOf (main argc argv)
    ∧ (stdoutOf (main argc argv)).bind
        (fun o => (terminatedLines [] o.toList).bind fun ls => ls.get? 6) =
      some "i / j = 0\n" := by
  have hc : main argc argv = _ := mainWith_result argc argv cInt (by simp)
  have hf := mainWith_result argc argv floorInt (by simp)
  have hu := mainWith_result argc argv euclidInt (by simp)
  refine ⟨rfl, rfl, rfl, rfl, ?_, ?_, ?_, ?_, rfl⟩
  · rw [hf]; exact hc.symm
  · rw [hu]; exact hc.symm
  · rw [hf, hc]
  · rw [hu, hc]

end GdbTutorial
